import Mathlib

/-!
Shallow embedding of the EduConnect lesson-tracking service
(src/app/services/tracking_service.py, src/app/routes.py,
src/app/models/tracking.py).

The service keeps one MongoDB document per user:
  { user_id, active_lessons : [ {lesson_id, serie_id, lesson_title,
    tab_id, last_active} ], current_lesson, last_updated }.
All claims concern a single user's document, and concurrent operations on
different users never interact (each operation filters by `user_id`), so the
store is modelled as that one user's slot: an `Option Tracking` together with
flags injecting a read or write failure (a raised exception carrying a
message), mirroring the `try`/`except` structure of the Python code.
Timestamps are naturals supplied explicitly as `now`.
-/

namespace EduTrack

/-- Entry of `active_lessons`: one tab's currently open lesson
(fields of the dict built in `set_current_lesson`, lines 97-103). -/
structure Lesson where
  lesson_id : String
  serie_id : String
  lesson_title : Option String
  tab_id : String
  last_active : Nat
  deriving Repr, DecidableEq

/-- The per-user tracking document (schema in the service docstring).
`current_lesson` is optional because `get_current_lesson` guards on its
absence with `tracking.get("current_lesson")`. -/
structure Tracking where
  user_id : String
  active_lessons : List Lesson
  current_lesson : Option Lesson
  last_updated : Nat
  deriving Repr, DecidableEq

/-- The tracking collection restricted to one user: the user's document, if
any, plus fault-injection flags. `findFail = some m` makes the next
`find_one` raise an exception with message `m`; `writeFail = some m` makes
any `update_one` / `insert_one` / `delete_one` raise. -/
structure MongoStore where
  doc : Option Tracking
  findFail : Option String
  writeFail : Option String
  deriving Repr, DecidableEq

/-- Read of `find_one({"user_id": user_id})`: raises on `findFail`,
otherwise returns the user's document (or `none`). -/
def find_one (s : MongoStore) : Except String (Option Tracking) :=
  match s.findFail with
  | some m => Except.error m
  | none => Except.ok s.doc

/-- Write of the user's slot (`update_one` with `$set`, `insert_one`, or
`delete_one` with `d = none`): raises on `writeFail`, otherwise replaces the
document. -/
def write_doc (s : MongoStore) (d : Option Tracking) : Except String MongoStore :=
  match s.writeFail with
  | some m => Except.error m
  | none => Except.ok { s with doc := d }

/-- Payload of the success result of `set_current_lesson` (lines 143-149). -/
structure SetData where
  user_id : String
  lesson_id : String
  serie_id : String
  lesson_title : Option String
  tab_id : String
  deriving Repr, DecidableEq

/-- Result dict of `set_current_lesson`. -/
structure SetResult where
  success : Bool
  message : String
  data : Option SetData
  deriving Repr, DecidableEq

/-- Result dict of `update_focus` (`data` is the focused lesson entry). -/
structure FocusResult where
  success : Bool
  message : String
  data : Option Lesson
  deriving Repr, DecidableEq

/-- Result dict of `clear_current_lesson`. -/
structure ClearResult where
  success : Bool
  message : String
  deriving Repr, DecidableEq

/-- TrackingService.set_current_lesson (lines 81-157): add or update the
lesson for one tab, unconditionally taking focus. -/
def set_current_lesson (user_id lesson_id serie_id tab_id : String)
    (lesson_title : Option String) (now : Nat) (s : MongoStore) :
    MongoStore × SetResult :=
  let new_lesson : Lesson :=
    { lesson_id := lesson_id, serie_id := serie_id,
      lesson_title := lesson_title, tab_id := tab_id, last_active := now }
  match find_one s with
  | Except.error e =>
      (s, { success := false,
            message := "Failed to set current lesson: " ++ e, data := none })
  | Except.ok (some tracking) =>
      let active_lessons :=
        (tracking.active_lessons.filter (fun l => l.tab_id != tab_id))
          ++ [new_lesson]
      match write_doc s (some { tracking with
          active_lessons := active_lessons,
          current_lesson := some new_lesson,
          last_updated := now }) with
      | Except.error e =>
          (s, { success := false,
                message := "Failed to set current lesson: " ++ e, data := none })
      | Except.ok s2 =>
          (s2, { success := true,
                 message := "Current lesson set successfully",
                 data := some { user_id := user_id, lesson_id := lesson_id,
                                serie_id := serie_id,
                                lesson_title := lesson_title,
                                tab_id := tab_id } })
  | Except.ok none =>
      let fresh : Tracking :=
        { user_id := user_id, active_lessons := [new_lesson],
          current_lesson := some new_lesson, last_updated := now }
      match write_doc s (some fresh) with
      | Except.error e =>
          (s, { success := false,
                message := "Failed to set current lesson: " ++ e, data := none })
      | Except.ok s2 =>
          (s2, { success := true,
                 message := "Current lesson set successfully",
                 data := some { user_id := user_id, lesson_id := lesson_id,
                                serie_id := serie_id,
                                lesson_title := lesson_title,
                                tab_id := tab_id } })

/-- The in-place mutation of `update_focus`'s loop (lines 180-184): set
`last_active := now` on the first entry whose `tab_id` matches, leave the
rest unchanged (the loop breaks at the first match). -/
def updateFirst (tab_id : String) (now : Nat) : List Lesson → List Lesson
  | [] => []
  | l :: ls =>
      if l.tab_id == tab_id then { l with last_active := now } :: ls
      else l :: updateFirst tab_id now ls

/-- TrackingService.update_focus (lines 159-217): mark one tab as focused. -/
def update_focus (user_id tab_id : String) (now : Nat) (s : MongoStore) :
    MongoStore × FocusResult :=
  match find_one s with
  | Except.error e =>
      (s, { success := false,
            message := "Failed to update focus: " ++ e, data := none })
  | Except.ok none =>
      (s, { success := false,
            message := "No tracking data found for user", data := none })
  | Except.ok (some tracking) =>
      match tracking.active_lessons.find? (fun l => l.tab_id == tab_id) with
      | none =>
          (s, { success := false,
                message := "Tab not found in active lessons", data := none })
      | some l =>
          let focused_lesson := { l with last_active := now }
          match write_doc s (some { tracking with
              active_lessons := updateFirst tab_id now tracking.active_lessons,
              current_lesson := some focused_lesson,
              last_updated := now }) with
          | Except.error e =>
              (s, { success := false,
                    message := "Failed to update focus: " ++ e, data := none })
          | Except.ok s2 =>
              (s2, { success := true,
                     message := "Focus updated successfully",
                     data := some focused_lesson })

/-- View returned by `get_current_lesson` (lines 243-251); the enrichment
field fetched from the separate lessons collection is outside the core. -/
structure CurrentView where
  user_id : String
  lesson_id : String
  serie_id : String
  lesson_title : Option String
  last_updated : Nat
  active_lessons : List Lesson
  total_active_tabs : Nat
  deriving Repr, DecidableEq

/-- TrackingService.get_current_lesson (lines 219-267): the focused-tab
view, or `none` when the user has no document or no `current_lesson`.
The `except` clause (lines 265-267) turns a raised store error into `none`. -/
def get_current_lesson (user_id : String) (s : MongoStore) : Option CurrentView :=
  match find_one s with
  | Except.error _ => none
  | Except.ok none => none
  | Except.ok (some tracking) =>
      match tracking.current_lesson with
      | none => none
      | some current =>
          some { user_id := tracking.user_id,
                 lesson_id := current.lesson_id,
                 serie_id := current.serie_id,
                 lesson_title := current.lesson_title,
                 last_updated := tracking.last_updated,
                 active_lessons := tracking.active_lessons,
                 total_active_tabs := tracking.active_lessons.length }

/-- CurrentLessonResponse (src/app/models/tracking.py, lines 63-72). -/
structure CurrentLessonResponse where
  user_id : String
  lesson_id : Option String
  serie_id : Option String
  lesson_title : Option String
  last_updated : Option Nat
  is_in_lesson : Bool
  active_lessons : List Lesson
  total_active_tabs : Nat
  deriving Repr, DecidableEq

/-- Route handler GET /user/user_id/current (src/app/routes.py,
lines 121-167): `None` from the service becomes the Absent view with
`is_in_lesson = false`, empty list and zero tabs. -/
def get_current_lesson_route (user_id : String) (s : MongoStore) :
    CurrentLessonResponse :=
  match get_current_lesson user_id s with
  | none =>
      { user_id := user_id, lesson_id := none, serie_id := none,
        lesson_title := none, last_updated := none, is_in_lesson := false,
        active_lessons := [], total_active_tabs := 0 }
  | some current =>
      { user_id := current.user_id,
        lesson_id := some current.lesson_id,
        serie_id := some current.serie_id,
        lesson_title := current.lesson_title,
        last_updated := some current.last_updated,
        is_in_lesson := true,
        active_lessons := current.active_lessons,
        total_active_tabs := current.total_active_tabs }

/-- Python `max(active_lessons, key=lambda x: x.get("last_active", ...))`
over a non-empty list `l :: ls`: keeps the current maximum unless a later
element is strictly larger, hence returns the first element attaining the
maximum `last_active`. -/
def maxByLastActive (l : Lesson) (ls : List Lesson) : Lesson :=
  ls.foldl (fun acc x => if x.last_active > acc.last_active then x else acc) l

/-- TrackingService.clear_current_lesson (lines 269-322): remove one tab's
lesson; delete the document when no tab remains, otherwise re-elect the
most recently active tab as `current_lesson`. -/
def clear_current_lesson (user_id tab_id : String) (now : Nat)
    (s : MongoStore) : MongoStore × ClearResult :=
  match find_one s with
  | Except.error e =>
      (s, { success := false,
            message := "Failed to clear current lesson: " ++ e })
  | Except.ok none =>
      (s, { success := true, message := "No tracking data found" })
  | Except.ok (some tracking) =>
      match tracking.active_lessons.filter (fun l => l.tab_id != tab_id) with
      | [] =>
          match write_doc s none with
          | Except.error e =>
              (s, { success := false,
                    message := "Failed to clear current lesson: " ++ e })
          | Except.ok s2 =>
              (s2, { success := true, message := "All lessons cleared" })
      | l :: ls =>
          let most_recent := maxByLastActive l ls
          match write_doc s (some { tracking with
              active_lessons := l :: ls,
              current_lesson := some most_recent,
              last_updated := now }) with
          | Except.error e =>
              (s, { success := false,
                    message := "Failed to clear current lesson: " ++ e })
          | Except.ok s2 =>
              (s2, { success := true,
                     message := "Lesson cleared, " ++ toString (l :: ls).length
                       ++ " tabs remaining" })

/-- SetCurrentLessonRequest (src/app/models/tracking.py, lines 15-21):
the validated request body of POST /lesson/enter. -/
structure SetCurrentLessonRequest where
  user_id : String
  lesson_id : String
  serie_id : String
  lesson_title : Option String
  tab_id : String
  deriving Repr, DecidableEq

/-- ClearCurrentLessonRequest (lines 35-38): body of POST /lesson/exit. -/
structure ClearCurrentLessonRequest where
  user_id : String
  tab_id : String
  deriving Repr, DecidableEq

/-- UpdateFocusRequest (lines 49-52): body of POST /lesson/focus. -/
structure UpdateFocusRequest where
  user_id : String
  tab_id : String
  deriving Repr, DecidableEq

/-- Raw JSON body of POST /lesson/enter before Pydantic validation: each
field either present (with a string value) or missing. -/
structure RawSetRequest where
  user_id : Option String
  lesson_id : Option String
  serie_id : Option String
  lesson_title : Option String
  tab_id : Option String
  deriving Repr, DecidableEq

/-- Raw JSON body of POST /lesson/exit before validation. -/
structure RawClearRequest where
  user_id : Option String
  tab_id : Option String
  deriving Repr, DecidableEq

/-- Raw JSON body of POST /lesson/focus before validation. -/
structure RawFocusRequest where
  user_id : Option String
  tab_id : Option String
  deriving Repr, DecidableEq

/-- Pydantic validation of SetCurrentLessonRequest: a field declared
`str = Field(...)` is required, so a missing field is rejected (FastAPI
returns a validation error before the handler runs), but any present
string — the empty string included — is accepted; `lesson_title` is
`Optional[str]` with default `None`. No field carries a length or
non-emptiness constraint. -/
def validateSetRequest (r : RawSetRequest) : Option SetCurrentLessonRequest :=
  match r.user_id, r.lesson_id, r.serie_id, r.tab_id with
  | some u, some l, some se, some t =>
      some { user_id := u, lesson_id := l, serie_id := se,
             lesson_title := r.lesson_title, tab_id := t }
  | _, _, _, _ => none

/-- Pydantic validation of ClearCurrentLessonRequest: both fields required,
no non-emptiness constraint. -/
def validateClearRequest (r : RawClearRequest) : Option ClearCurrentLessonRequest :=
  match r.user_id, r.tab_id with
  | some u, some t => some { user_id := u, tab_id := t }
  | _, _ => none

/-- Pydantic validation of UpdateFocusRequest: both fields required,
no non-emptiness constraint. -/
def validateFocusRequest (r : RawFocusRequest) : Option UpdateFocusRequest :=
  match r.user_id, r.tab_id with
  | some u, some t => some { user_id := u, tab_id := t }
  | _, _ => none

/-- Arguments of one POST /lesson/enter call (the timestamp is the
`datetime.now` observed inside that call). -/
structure EnterCall where
  lesson_id : String
  serie_id : String
  lesson_title : Option String
  tab_id : String
  now : Nat
  deriving Repr, DecidableEq

/-- The `active_lessons` entry `set_current_lesson` builds for a call. -/
def toLesson (c : EnterCall) : Lesson :=
  { lesson_id := c.lesson_id, serie_id := c.serie_id,
    lesson_title := c.lesson_title, tab_id := c.tab_id,
    last_active := c.now }

/-- Run a sequence of EnterLesson calls for one user against the store. -/
def runEnters (u : String) (calls : List EnterCall) (s : MongoStore) :
    MongoStore :=
  calls.foldl
    (fun st c =>
      (set_current_lesson u c.lesson_id c.serie_id c.tab_id c.lesson_title
        c.now st).1)
    s

/-- States of one user's document reachable from the absent state by
EnterLesson / ExitLesson / UpdateFocus transitions, under any behaviour of
the store (a failed read or write leaves the document unchanged). -/
inductive Reachable : Option Tracking → Prop where
  | init : Reachable none
  | enter (st : Option Tracking) (ff wf : Option String)
      (u l se t : String) (title : Option String) (now : Nat) :
      Reachable st →
      Reachable (set_current_lesson u l se t title now
        { doc := st, findFail := ff, writeFail := wf }).1.doc
  | focus (st : Option Tracking) (ff wf : Option String)
      (u t : String) (now : Nat) :
      Reachable st →
      Reachable (update_focus u t now
        { doc := st, findFail := ff, writeFail := wf }).1.doc
  | exita (st : Option Tracking) (ff wf : Option String)
      (u t : String) (now : Nat) :
      Reachable st →
      Reachable (clear_current_lesson u t now
        { doc := st, findFail := ff, writeFail := wf }).1.doc

/-! Helper lemmas about the first-maximum election performed by Python
`max` with a key function, and about `List.filter` on tab identifiers. -/

theorem maxByLastActive_cons (l x : Lesson) (xs : List Lesson) :
    maxByLastActive l (x :: xs) =
      maxByLastActive (if x.last_active > l.last_active then x else l) xs := rfl

theorem le_maxByLastActive_init (ls : List Lesson) : ∀ l : Lesson,
    l.last_active ≤ (maxByLastActive l ls).last_active := by
  induction ls with
  | nil => intro l; exact le_refl _
  | cons x xs ih =>
    intro l
    rw [maxByLastActive_cons]
    by_cases h : x.last_active > l.last_active
    · rw [if_pos h]
      exact le_trans (le_of_lt h) (ih x)
    · rw [if_neg h]
      exact ih l

theorem le_maxByLastActive (ls : List Lesson) : ∀ l : Lesson, ∀ x ∈ l :: ls,
    x.last_active ≤ (maxByLastActive l ls).last_active := by
  induction ls with
  | nil =>
    intro l x hx
    rcases List.mem_cons.mp hx with h | h
    · subst h; exact le_refl _
    · simp at h
  | cons y ys ih =>
    intro l x hx
    rw [maxByLastActive_cons]
    rcases List.mem_cons.mp hx with h | hx2
    · subst h
      by_cases hyl : y.last_active > x.last_active
      · rw [if_pos hyl]
        exact le_trans (le_of_lt hyl) (le_maxByLastActive_init ys y)
      · rw [if_neg hyl]
        exact le_maxByLastActive_init ys x
    · rcases List.mem_cons.mp hx2 with h | hx3
      · subst h
        by_cases hyl : x.last_active > l.last_active
        · rw [if_pos hyl]
          exact le_maxByLastActive_init ys x
        · rw [if_neg hyl]
          exact le_trans (le_of_not_lt hyl) (le_maxByLastActive_init ys l)
      · exact ih _ x (List.mem_cons_of_mem _ hx3)

theorem maxByLastActive_mem (ls : List Lesson) : ∀ l : Lesson,
    maxByLastActive l ls ∈ l :: ls := by
  induction ls with
  | nil => intro l; exact List.mem_cons_self _ _
  | cons x xs ih =>
    intro l
    rw [maxByLastActive_cons]
    rcases List.mem_cons.mp (ih (if x.last_active > l.last_active then x else l)) with h | h
    · rw [h]
      by_cases hxl : x.last_active > l.last_active
      · rw [if_pos hxl]
        exact List.mem_cons_of_mem _ (List.mem_cons_self _ _)
      · rw [if_neg hxl]
        exact List.mem_cons_self _ _
    · exact List.mem_cons_of_mem _ (List.mem_cons_of_mem _ h)

theorem find?_maxByLastActive (ls : List Lesson) : ∀ l : Lesson,
    (l :: ls).find?
        (fun x => x.last_active == (maxByLastActive l ls).last_active)
      = some (maxByLastActive l ls) := by
  induction ls with
  | nil =>
    intro l
    exact List.find?_cons_of_pos _ (by simp [maxByLastActive])
  | cons x xs ih =>
    intro l
    rw [maxByLastActive_cons]
    by_cases hxl : x.last_active > l.last_active
    · rw [if_pos hxl]
      have hM : x.last_active ≤ (maxByLastActive x xs).last_active :=
        le_maxByLastActive_init xs x
      have hl : ¬ ((fun y : Lesson =>
          y.last_active == (maxByLastActive x xs).last_active) l) = true := by
        simp only [beq_iff_eq]
        omega
      rw [List.find?_cons_of_neg (p := fun y : Lesson => y.last_active == (maxByLastActive x xs).last_active) _ hl]
      exact ih x
    · rw [if_neg hxl]
      by_cases hpl : ((fun y : Lesson =>
          y.last_active == (maxByLastActive l xs).last_active) l) = true
      · have hfix : maxByLastActive l xs = l := by
          have h2 := ih l
          rw [List.find?_cons_of_pos (p := fun y : Lesson => y.last_active == (maxByLastActive l xs).last_active) _ hpl] at h2
          exact (Option.some_inj.mp h2).symm
        rw [List.find?_cons_of_pos (p := fun y : Lesson => y.last_active == (maxByLastActive l xs).last_active) _ hpl, hfix]
      · have hlM : l.last_active < (maxByLastActive l xs).last_active := by
          have := le_maxByLastActive_init xs l
          simp only [beq_iff_eq] at hpl
          omega
        have hpx : ¬ ((fun y : Lesson =>
            y.last_active == (maxByLastActive l xs).last_active) x) = true := by
          simp only [beq_iff_eq]
          have := le_of_not_lt hxl
          omega
        rw [List.find?_cons_of_neg (p := fun y : Lesson => y.last_active == (maxByLastActive l xs).last_active) _ hpl, List.find?_cons_of_neg (p := fun y : Lesson => y.last_active == (maxByLastActive l xs).last_active) _ hpx]
        have h2 := ih l
        rw [List.find?_cons_of_neg (p := fun y : Lesson => y.last_active == (maxByLastActive l xs).last_active) _ hpl] at h2
        exact h2

theorem filter_ne_tab_eq_self (tab : String) (ls : List Lesson)
    (h : ∀ x ∈ ls, x.tab_id ≠ tab) :
    ls.filter (fun x => x.tab_id != tab) = ls := by
  apply List.filter_eq_self.mpr
  intro a ha
  exact bne_iff_ne.mpr (h a ha)

theorem clear_current_lesson_keeps_tabs (u tab : String) (now : Nat)
    (tr : Tracking) (l : Lesson) (ls : List Lesson)
    (hf : tr.active_lessons.filter (fun x => x.tab_id != tab) = l :: ls) :
    clear_current_lesson u tab now ⟨some tr, none, none⟩ =
      (⟨some { tr with
                 active_lessons := l :: ls,
                 current_lesson := some (maxByLastActive l ls),
                 last_updated := now }, none, none⟩,
       ⟨true, "Lesson cleared, " ++ toString (l :: ls).length
          ++ " tabs remaining"⟩) := by
  simp [clear_current_lesson, find_one, write_doc, hf]

/-- C1: on every ExitLesson that leaves at least one entry in a record that
had at least two, the re-elected `focused_entry` is the remaining entry with
the maximum `last_active` (first occurrence in insertion order on ties),
whatever the previous focus was, and the result message reports the
remaining tab count. -/
theorem exitLesson_reelects_first_max (u tab : String) (now : Nat)
    (tr : Tracking)
    (h2 : 2 ≤ tr.active_lessons.length)
    (hrem : tr.active_lessons.filter (fun x => x.tab_id != tab) ≠ []) :
    ∃ tr2 c,
      (clear_current_lesson u tab now ⟨some tr, none, none⟩).1.doc
        = some tr2 ∧
      tr2.current_lesson = some c ∧
      tr2.active_lessons = tr.active_lessons.filter (fun x => x.tab_id != tab) ∧
      tr2.last_updated = now ∧
      (tr.active_lessons.filter (fun x => x.tab_id != tab)).find?
          (fun x => x.last_active == c.last_active) = some c ∧
      (∀ x ∈ tr.active_lessons.filter (fun x => x.tab_id != tab),
          x.last_active ≤ c.last_active) ∧
      (clear_current_lesson u tab now ⟨some tr, none, none⟩).2.message
        = "Lesson cleared, "
            ++ toString (tr.active_lessons.filter
                  (fun x => x.tab_id != tab)).length
            ++ " tabs remaining" := by
  obtain ⟨l, ls, hf⟩ := List.exists_cons_of_ne_nil hrem
  rw [hf, clear_current_lesson_keeps_tabs u tab now tr l ls hf]
  exact ⟨_, maxByLastActive l ls, rfl, rfl, rfl, rfl,
    find?_maxByLastActive ls l, le_maxByLastActive ls l, rfl⟩

/-- Witness for C1: tabs tabX (last_active 1) and tabY (last_active 2), focus
on tabY; exiting tabY re-elects tabX. -/
theorem exitLesson_reelects_first_max_witness :
    (2 ≤ (Tracking.mk "u1"
        [⟨"lessonA", "serieA", none, "tabX", 1⟩,
         ⟨"lessonB", "serieB", none, "tabY", 2⟩]
        (some ⟨"lessonB", "serieB", none, "tabY", 2⟩) 2).active_lessons.length)
    ∧ ∃ tr2 c,
      (clear_current_lesson "u1" "tabY" 5
        ⟨some (Tracking.mk "u1"
          [⟨"lessonA", "serieA", none, "tabX", 1⟩,
           ⟨"lessonB", "serieB", none, "tabY", 2⟩]
          (some ⟨"lessonB", "serieB", none, "tabY", 2⟩) 2),
         none, none⟩).1.doc = some tr2 ∧
      tr2.current_lesson = some c ∧
      tr2.active_lessons = ((Tracking.mk "u1"
          [⟨"lessonA", "serieA", none, "tabX", 1⟩,
           ⟨"lessonB", "serieB", none, "tabY", 2⟩]
          (some ⟨"lessonB", "serieB", none, "tabY", 2⟩) 2).active_lessons.filter
            (fun x => x.tab_id != "tabY")) ∧
      tr2.last_updated = 5 ∧
      ((Tracking.mk "u1"
          [⟨"lessonA", "serieA", none, "tabX", 1⟩,
           ⟨"lessonB", "serieB", none, "tabY", 2⟩]
          (some ⟨"lessonB", "serieB", none, "tabY", 2⟩) 2).active_lessons.filter
            (fun x => x.tab_id != "tabY")).find?
          (fun x => x.last_active == c.last_active) = some c ∧
      (∀ x ∈ (Tracking.mk "u1"
          [⟨"lessonA", "serieA", none, "tabX", 1⟩,
           ⟨"lessonB", "serieB", none, "tabY", 2⟩]
          (some ⟨"lessonB", "serieB", none, "tabY", 2⟩) 2).active_lessons.filter
            (fun x => x.tab_id != "tabY"),
          x.last_active ≤ c.last_active) ∧
      (clear_current_lesson "u1" "tabY" 5
        ⟨some (Tracking.mk "u1"
          [⟨"lessonA", "serieA", none, "tabX", 1⟩,
           ⟨"lessonB", "serieB", none, "tabY", 2⟩]
          (some ⟨"lessonB", "serieB", none, "tabY", 2⟩) 2),
         none, none⟩).2.message
        = "Lesson cleared, "
            ++ toString ((Tracking.mk "u1"
                [⟨"lessonA", "serieA", none, "tabX", 1⟩,
                 ⟨"lessonB", "serieB", none, "tabY", 2⟩]
                (some ⟨"lessonB", "serieB", none, "tabY", 2⟩) 2).active_lessons.filter
                  (fun x => x.tab_id != "tabY")).length
            ++ " tabs remaining" :=
  ⟨by decide,
   exitLesson_reelects_first_max "u1" "tabY" 5 _ (by decide) (by decide)⟩

/-- C10: ExitLesson for a tab_id matching no entry (while entries exist) is
not a pure no-op: it rewrites `current_lesson` to the entry with maximum
`last_active`, refreshes `last_updated`, and reports success with the
unchanged entry count. -/
theorem exitLesson_unknown_tab_still_reelects (u tab : String) (now : Nat)
    (tr : Tracking)
    (hne : tr.active_lessons ≠ [])
    (hno : ∀ x ∈ tr.active_lessons, x.tab_id ≠ tab) :
    ∃ tr2 c,
      (clear_current_lesson u tab now ⟨some tr, none, none⟩).1.doc
        = some tr2 ∧
      tr2.active_lessons = tr.active_lessons ∧
      tr2.current_lesson = some c ∧
      tr2.last_updated = now ∧
      tr.active_lessons.find? (fun x => x.last_active == c.last_active)
        = some c ∧
      (∀ x ∈ tr.active_lessons, x.last_active ≤ c.last_active) ∧
      (clear_current_lesson u tab now ⟨some tr, none, none⟩).2
        = ⟨true, "Lesson cleared, " ++ toString tr.active_lessons.length
            ++ " tabs remaining"⟩ := by
  obtain ⟨l, ls, hcons⟩ := List.exists_cons_of_ne_nil hne
  have hf : tr.active_lessons.filter (fun x => x.tab_id != tab) = l :: ls := by
    rw [filter_ne_tab_eq_self tab tr.active_lessons hno, hcons]
  rw [hcons, clear_current_lesson_keeps_tabs u tab now tr l ls hf]
  exact ⟨_, maxByLastActive l ls, rfl, rfl, rfl, rfl,
    find?_maxByLastActive ls l, le_maxByLastActive ls l, rfl⟩

/-- Witness for C10: exiting unknown tab "tabZ" with tabs tabX, tabY open
moves focus to tabY (maximum last_active) and reports 2 tabs remaining. -/
theorem exitLesson_unknown_tab_still_reelects_witness :
    ∃ tr2 c,
      (clear_current_lesson "u1" "tabZ" 9
        ⟨some (Tracking.mk "u1"
          [⟨"lessonA", "serieA", none, "tabX", 1⟩,
           ⟨"lessonB", "serieB", none, "tabY", 2⟩]
          (some ⟨"lessonA", "serieA", none, "tabX", 1⟩) 2),
         none, none⟩).1.doc = some tr2 ∧
      tr2.active_lessons = (Tracking.mk "u1"
          [⟨"lessonA", "serieA", none, "tabX", 1⟩,
           ⟨"lessonB", "serieB", none, "tabY", 2⟩]
          (some ⟨"lessonA", "serieA", none, "tabX", 1⟩) 2).active_lessons ∧
      tr2.current_lesson = some c ∧
      tr2.last_updated = 9 ∧
      (Tracking.mk "u1"
          [⟨"lessonA", "serieA", none, "tabX", 1⟩,
           ⟨"lessonB", "serieB", none, "tabY", 2⟩]
          (some ⟨"lessonA", "serieA", none, "tabX", 1⟩) 2).active_lessons.find?
        (fun x => x.last_active == c.last_active) = some c ∧
      (∀ x ∈ (Tracking.mk "u1"
          [⟨"lessonA", "serieA", none, "tabX", 1⟩,
           ⟨"lessonB", "serieB", none, "tabY", 2⟩]
          (some ⟨"lessonA", "serieA", none, "tabX", 1⟩) 2).active_lessons,
          x.last_active ≤ c.last_active) ∧
      (clear_current_lesson "u1" "tabZ" 9
        ⟨some (Tracking.mk "u1"
          [⟨"lessonA", "serieA", none, "tabX", 1⟩,
           ⟨"lessonB", "serieB", none, "tabY", 2⟩]
          (some ⟨"lessonA", "serieA", none, "tabX", 1⟩) 2),
         none, none⟩).2
        = ⟨true, "Lesson cleared, " ++ toString (Tracking.mk "u1"
            [⟨"lessonA", "serieA", none, "tabX", 1⟩,
             ⟨"lessonB", "serieB", none, "tabY", 2⟩]
            (some ⟨"lessonA", "serieA", none, "tabX", 1⟩) 2).active_lessons.length
            ++ " tabs remaining"⟩ :=
  exitLesson_unknown_tab_still_reelects "u1" "tabZ" 9 _ (by decide) (by decide)

/-- C4: exiting the only remaining tab deletes the whole record with message
"All lessons cleared", and a subsequent GetCurrent returns the Absent view
with is_in_lesson = false, no active lessons and zero tabs. -/
theorem exitLesson_last_tab_clears_all (u : String) (now : Nat)
    (tr : Tracking) (l : Lesson)
    (h : tr.active_lessons = [l]) :
    clear_current_lesson u l.tab_id now ⟨some tr, none, none⟩ =
      (⟨none, none, none⟩, ⟨true, "All lessons cleared"⟩) ∧
    get_current_lesson_route u
        (clear_current_lesson u l.tab_id now ⟨some tr, none, none⟩).1 =
      ⟨u, none, none, none, none, false, [], 0⟩ := by
  have hstep : clear_current_lesson u l.tab_id now ⟨some tr, none, none⟩ =
      (⟨none, none, none⟩, ⟨true, "All lessons cleared"⟩) := by
    simp [clear_current_lesson, find_one, write_doc, h]
  refine ⟨hstep, ?_⟩
  rw [hstep]
  rfl

/-- Witness for C4: one open tab tabX; exiting it deletes the record and
GetCurrent then reports the Absent view. -/
theorem exitLesson_last_tab_clears_all_witness :
    clear_current_lesson "u1" ("tabX") 9
        ⟨some (Tracking.mk "u1" [⟨"lessonA", "serieA", none, "tabX", 1⟩]
          (some ⟨"lessonA", "serieA", none, "tabX", 1⟩) 1), none, none⟩ =
      (⟨none, none, none⟩, ⟨true, "All lessons cleared"⟩) ∧
    get_current_lesson_route "u1"
        (clear_current_lesson "u1" ("tabX") 9
          ⟨some (Tracking.mk "u1" [⟨"lessonA", "serieA", none, "tabX", 1⟩]
            (some ⟨"lessonA", "serieA", none, "tabX", 1⟩) 1), none, none⟩).1 =
      ⟨"u1", none, none, none, none, false, [], 0⟩ :=
  exitLesson_last_tab_clears_all "u1" 9 _
    (⟨"lessonA", "serieA", none, "tabX", 1⟩) rfl

/-- C7: ExitLesson with no record for the user succeeds as a no-op with
message "No tracking data found" — no write is issued even when any write
would fail — while UpdateFocus in the same situation fails; the asymmetry
between the two operations on an absent record. -/
theorem exitLesson_absent_record_noop (u tab : String) (now : Nat)
    (wf : Option String) :
    clear_current_lesson u tab now ⟨none, none, wf⟩ =
      (⟨none, none, wf⟩, ⟨true, "No tracking data found"⟩) ∧
    update_focus u tab now ⟨none, none, wf⟩ =
      (⟨none, none, wf⟩, ⟨false, "No tracking data found for user", none⟩) := by
  constructor
  · simp [clear_current_lesson, find_one]
  · simp [update_focus, find_one]
theorem updateFirst_mem (tab : String) (now : Nat) :
    ∀ ls : List Lesson, ∀ l : Lesson,
    ls.find? (fun x => x.tab_id == tab) = some l →
    { l with last_active := now } ∈ updateFirst tab now ls := by
  intro ls
  induction ls with
  | nil => intro l h; simp [List.find?] at h
  | cons a as ih =>
    intro l h
    by_cases ha : (a.tab_id == tab) = true
    · rw [List.find?_cons_of_pos (p := fun x : Lesson => x.tab_id == tab) _ ha] at h
      rw [Option.some_inj] at h
      subst h
      simp [updateFirst, ha]
    · rw [List.find?_cons_of_neg (p := fun x : Lesson => x.tab_id == tab) _ ha] at h
      simp only [updateFirst, if_neg ha]
      exact List.mem_cons_of_mem _ (ih l h)

/-- C6: UpdateFocus fails with the not-found failure result and leaves the
store untouched when the user has no record or the tab is unknown (no write
is issued, so the outcome is the same even when any write would fail);
otherwise it sets the matching entry's `last_active` to now, makes it the
`current_lesson`, refreshes `last_updated`, and returns the updated entry. -/
theorem updateFocus_not_found_or_updates (u tab : String) (now : Nat) :
    (∀ wf : Option String,
      update_focus u tab now ⟨none, none, wf⟩ =
        (⟨none, none, wf⟩,
         ⟨false, "No tracking data found for user", none⟩)) ∧
    (∀ tr : Tracking, ∀ wf : Option String,
      tr.active_lessons.find? (fun x => x.tab_id == tab) = none →
      update_focus u tab now ⟨some tr, none, wf⟩ =
        (⟨some tr, none, wf⟩,
         ⟨false, "Tab not found in active lessons", none⟩)) ∧
    (∀ tr : Tracking, ∀ l : Lesson,
      tr.active_lessons.find? (fun x => x.tab_id == tab) = some l →
      update_focus u tab now ⟨some tr, none, none⟩ =
        (⟨some { tr with
                   active_lessons := updateFirst tab now tr.active_lessons,
                   current_lesson := some { l with last_active := now },
                   last_updated := now }, none, none⟩,
         ⟨true, "Focus updated successfully",
          some { l with last_active := now }⟩) ∧
      { l with last_active := now } ∈ updateFirst tab now tr.active_lessons) := by
  refine ⟨?_, ?_, ?_⟩
  · intro wf
    simp [update_focus, find_one]
  · intro tr wf h
    simp [update_focus, find_one, h]
  · intro tr l h
    refine ⟨?_, updateFirst_mem tab now tr.active_lessons l h⟩
    simp [update_focus, find_one, write_doc, h]

/-- Witness for C6: focusing unknown tab "tabQ" on a record with one tab
fails and leaves the store unchanged; focusing the known tab "tabX"
refreshes it and returns it. -/
theorem updateFocus_not_found_or_updates_witness :
    update_focus "u1" "tabQ" 7
        ⟨some (Tracking.mk "u1" [⟨"lessonA", "serieA", none, "tabX", 1⟩]
          (some ⟨"lessonA", "serieA", none, "tabX", 1⟩) 1), none, none⟩ =
      (⟨some (Tracking.mk "u1" [⟨"lessonA", "serieA", none, "tabX", 1⟩]
          (some ⟨"lessonA", "serieA", none, "tabX", 1⟩) 1), none, none⟩,
       ⟨false, "Tab not found in active lessons", none⟩) ∧
    update_focus "u1" "tabX" 7
        ⟨some (Tracking.mk "u1" [⟨"lessonA", "serieA", none, "tabX", 1⟩]
          (some ⟨"lessonA", "serieA", none, "tabX", 1⟩) 1), none, none⟩ =
      (⟨some { Tracking.mk "u1" [⟨"lessonA", "serieA", none, "tabX", 1⟩]
                 (some ⟨"lessonA", "serieA", none, "tabX", 1⟩) 1 with
                 active_lessons := updateFirst "tabX" 7
                   [⟨"lessonA", "serieA", none, "tabX", 1⟩],
                 current_lesson := some { (⟨"lessonA", "serieA", none, "tabX", 1⟩ : Lesson) with
                   last_active := 7 },
                 last_updated := 7 }, none, none⟩,
       ⟨true, "Focus updated successfully",
        some { (⟨"lessonA", "serieA", none, "tabX", 1⟩ : Lesson) with
          last_active := 7 }⟩) :=
  ⟨(updateFocus_not_found_or_updates "u1" "tabQ" 7).2.1 _ none (by decide),
   ((updateFocus_not_found_or_updates "u1" "tabX" 7).2.2 _
     (⟨"lessonA", "serieA", none, "tabX", 1⟩ : Lesson) (by decide)).1⟩

/-- Counterexample to C8 as stated: with a record present but the store read
raising "connection reset", GetCurrent swallows the failure — the service
returns None (lines 265-267) and the route replies with the successful
Absent view instead of surfacing a failure. -/
theorem getCurrent_swallows_store_failure :
    get_current_lesson "u1"
        ⟨some (Tracking.mk "u1" [⟨"lessonA", "serieA", none, "tabX", 1⟩]
          (some ⟨"lessonA", "serieA", none, "tabX", 1⟩) 1),
         some "connection reset", none⟩ = none ∧
    get_current_lesson_route "u1"
        ⟨some (Tracking.mk "u1" [⟨"lessonA", "serieA", none, "tabX", 1⟩]
          (some ⟨"lessonA", "serieA", none, "tabX", 1⟩) 1),
         some "connection reset", none⟩ =
      ⟨"u1", none, none, none, none, false, [], 0⟩ := by
  constructor
  · rfl
  · rfl

/-- C8 amended: EnterLesson, ExitLesson and UpdateFocus surface a store
read failure — and a write failure whenever the operation attempts a write:
EnterLesson always writes, ExitLesson writes (update or delete) whenever a
record exists, UpdateFocus writes whenever the tab is found — as an
explicit failure result carrying the exception message; GetCurrent,
however, converts a store read failure into None, which the route turns
into the successful Absent view. -/
theorem store_failure_surfacing (u lesson serie tab m : String)
    (title : Option String) (now lu : Nat) (doc : Option Tracking)
    (l : Lesson) (rest : List Lesson) (cur : Option Lesson) :
    (set_current_lesson u lesson serie tab title now ⟨doc, some m, none⟩).2 =
      ⟨false, "Failed to set current lesson: " ++ m, none⟩ ∧
    (update_focus u tab now ⟨doc, some m, none⟩).2 =
      ⟨false, "Failed to update focus: " ++ m, none⟩ ∧
    (clear_current_lesson u tab now ⟨doc, some m, none⟩).2 =
      ⟨false, "Failed to clear current lesson: " ++ m⟩ ∧
    (set_current_lesson u lesson serie tab title now ⟨doc, none, some m⟩).2 =
      ⟨false, "Failed to set current lesson: " ++ m, none⟩ ∧
    (∀ tr : Tracking,
      (clear_current_lesson u tab now ⟨some tr, none, some m⟩).2 =
        ⟨false, "Failed to clear current lesson: " ++ m⟩) ∧
    (update_focus u l.tab_id now
        ⟨some ⟨u, l :: rest, cur, lu⟩, none, some m⟩).2 =
      ⟨false, "Failed to update focus: " ++ m, none⟩ ∧
    get_current_lesson u ⟨doc, some m, none⟩ = none ∧
    get_current_lesson_route u ⟨doc, some m, none⟩ =
      ⟨u, none, none, none, none, false, [], 0⟩ := by
  refine ⟨?_, ?_, ?_, ?_, ?_, ?_, ?_, ?_⟩
  · simp [set_current_lesson, find_one]
  · simp [update_focus, find_one]
  · simp [clear_current_lesson, find_one]
  · cases doc <;> simp [set_current_lesson, find_one, write_doc]
  · intro tr
    cases hfil : tr.active_lessons.filter (fun x => x.tab_id != tab) with
    | nil => simp [clear_current_lesson, find_one, write_doc, hfil]
    | cons a as => simp [clear_current_lesson, find_one, write_doc, hfil]
  · simp [update_focus, find_one, write_doc, List.find?]
  · simp [get_current_lesson, find_one]
  · simp [get_current_lesson_route, get_current_lesson, find_one]

/-- Counterexample to C9 as stated: a request whose required identifiers are
all present but empty passes Pydantic validation, and the service then both
reads and writes the store with the empty identifiers, succeeding. -/
theorem empty_identifiers_reach_store :
    validateSetRequest
        ⟨some "", some "", some "", none, some ""⟩ =
      some ⟨"", "", "", none, ""⟩ ∧
    (set_current_lesson "" "" "" "" none 5 ⟨none, none, none⟩).1.doc =
      some ⟨"", [⟨"", "", none, "", 5⟩], some ⟨"", "", none, "", 5⟩, 5⟩ ∧
    (set_current_lesson "" "" "" "" none 5 ⟨none, none, none⟩).2.success
      = true := by
  refine ⟨rfl, rfl, rfl⟩

/-- C9 amended: validation rejects a request exactly when a required
identifier field is missing — an empty-string identifier passes — and the
service layer performs no emptiness check of its own: EnterLesson reads and
writes the store with whatever identifiers it is given, empty ones
included. -/
theorem validation_rejects_only_missing_fields (r1 : RawSetRequest)
    (r2 : RawClearRequest) (r3 : RawFocusRequest)
    (u lesson serie tab : String) (now : Nat) :
    ((validateSetRequest r1).isSome ↔
      (r1.user_id.isSome ∧ r1.lesson_id.isSome ∧ r1.serie_id.isSome ∧
        r1.tab_id.isSome)) ∧
    ((validateClearRequest r2).isSome ↔
      (r2.user_id.isSome ∧ r2.tab_id.isSome)) ∧
    ((validateFocusRequest r3).isSome ↔
      (r3.user_id.isSome ∧ r3.tab_id.isSome)) ∧
    (set_current_lesson u lesson serie tab none now ⟨none, none, none⟩).1.doc =
      some ⟨u, [⟨lesson, serie, none, tab, now⟩],
            some ⟨lesson, serie, none, tab, now⟩, now⟩ := by
  refine ⟨?_, ?_, ?_, ?_⟩
  · obtain ⟨f1, f2, f3, f4, f5⟩ := r1
    cases f1 <;> cases f2 <;> cases f3 <;> cases f5 <;>
      simp [validateSetRequest]
  · obtain ⟨f1, f2⟩ := r2
    cases f1 <;> cases f2 <;> simp [validateClearRequest]
  · obtain ⟨f1, f2⟩ := r3
    cases f1 <;> cases f2 <;> simp [validateFocusRequest]
  · simp [set_current_lesson, find_one, write_doc]
theorem set_current_lesson_fresh_tab (u : String) (c : EnterCall)
    (tr : Tracking)
    (h : ∀ x ∈ tr.active_lessons, x.tab_id ≠ c.tab_id) :
    (set_current_lesson u c.lesson_id c.serie_id c.tab_id c.lesson_title
        c.now ⟨some tr, none, none⟩).1 =
      ⟨some { tr with
                active_lessons := tr.active_lessons ++ [toLesson c],
                current_lesson := some (toLesson c),
                last_updated := c.now }, none, none⟩ := by
  simp only [set_current_lesson, find_one, write_doc]
  rw [filter_ne_tab_eq_self c.tab_id tr.active_lessons h]
  rfl

theorem set_current_lesson_no_record (u : String) (c : EnterCall) :
    (set_current_lesson u c.lesson_id c.serie_id c.tab_id c.lesson_title
        c.now ⟨none, none, none⟩).1 =
      ⟨some ⟨u, [toLesson c], some (toLesson c), c.now⟩, none, none⟩ := by
  simp only [set_current_lesson, find_one, write_doc]
  rfl

theorem runEnters_snoc (u : String) (cs : List EnterCall) (c : EnterCall)
    (s : MongoStore) :
    runEnters u (cs ++ [c]) s =
      (set_current_lesson u c.lesson_id c.serie_id c.tab_id c.lesson_title
        c.now (runEnters u cs s)).1 := by
  simp [runEnters, List.foldl_append]

theorem runEnters_distinct_tabs (u : String) :
    ∀ cs : List EnterCall, ∀ ls : List Lesson, ∀ cur : Option Lesson,
    ∀ lu : Nat,
    (cs.map (fun c => c.tab_id)).Nodup →
    (∀ cc ∈ cs, ∀ x ∈ ls, x.tab_id ≠ cc.tab_id) →
    ∃ cur2 lu2,
      runEnters u cs ⟨some ⟨u, ls, cur, lu⟩, none, none⟩ =
        ⟨some ⟨u, ls ++ cs.map toLesson, cur2, lu2⟩, none, none⟩ := by
  intro cs
  induction cs with
  | nil =>
    intro ls cur lu hnd hfresh
    exact ⟨cur, lu, by simp [runEnters]⟩
  | cons c cs ih =>
    intro ls cur lu hnd hfresh
    have hstep : runEnters u (c :: cs) ⟨some ⟨u, ls, cur, lu⟩, none, none⟩ =
        runEnters u cs
          ⟨some ⟨u, ls ++ [toLesson c], some (toLesson c), c.now⟩,
           none, none⟩ := by
      have h1 := set_current_lesson_fresh_tab u c ⟨u, ls, cur, lu⟩
        (fun x hx => hfresh c (List.mem_cons_self c cs) x hx)
      simp only [runEnters, List.foldl_cons]
      rw [h1]
    rw [hstep]
    have hnd2 : (cs.map (fun x => x.tab_id)).Nodup :=
      (List.nodup_cons.mp hnd).2
    have hnotin : c.tab_id ∉ cs.map (fun x => x.tab_id) :=
      (List.nodup_cons.mp hnd).1
    have hfresh2 : ∀ cc ∈ cs, ∀ x ∈ ls ++ [toLesson c],
        x.tab_id ≠ cc.tab_id := by
      intro cc hcc x hx
      rcases List.mem_append.mp hx with hx1 | hx2
      · exact hfresh cc (List.mem_cons_of_mem c hcc) x hx1
      · have hxe : x = toLesson c := by simpa using hx2
        subst hxe
        intro heq
        have heq2 : c.tab_id = cc.tab_id := heq
        exact hnotin (heq2 ▸ List.mem_map_of_mem (fun y => y.tab_id) hcc)
    obtain ⟨cur2, lu2, hrun⟩ := ih (ls ++ [toLesson c]) (some (toLesson c))
      c.now hnd2 hfresh2
    refine ⟨cur2, lu2, ?_⟩
    rw [hrun]
    simp

theorem runEnters_from_absent (u : String) :
    ∀ cs : List EnterCall, cs ≠ [] →
    (cs.map (fun c => c.tab_id)).Nodup →
    ∃ cur2 lu2,
      runEnters u cs ⟨none, none, none⟩ =
        ⟨some ⟨u, cs.map toLesson, cur2, lu2⟩, none, none⟩ := by
  intro cs hne hnd
  obtain ⟨c, cs2, rfl⟩ := List.exists_cons_of_ne_nil hne
  have hstep : runEnters u (c :: cs2) ⟨none, none, none⟩ =
      runEnters u cs2
        ⟨some ⟨u, [toLesson c], some (toLesson c), c.now⟩, none, none⟩ := by
    simp only [runEnters, List.foldl_cons]
    rw [set_current_lesson_no_record u c]
  rw [hstep]
  have hnd2 : (cs2.map (fun x => x.tab_id)).Nodup := (List.nodup_cons.mp hnd).2
  have hnotin : c.tab_id ∉ cs2.map (fun x => x.tab_id) :=
    (List.nodup_cons.mp hnd).1
  have hfresh : ∀ cc ∈ cs2, ∀ x ∈ [toLesson c], x.tab_id ≠ cc.tab_id := by
    intro cc hcc x hx
    have hxe : x = toLesson c := by simpa using hx
    subst hxe
    intro heq
    have heq2 : c.tab_id = cc.tab_id := heq
    exact hnotin (heq2 ▸ List.mem_map_of_mem (fun y => y.tab_id) hcc)
  obtain ⟨cur2, lu2, hrun⟩ := runEnters_distinct_tabs u cs2 [toLesson c]
    (some (toLesson c)) c.now hnd2 hfresh
  refine ⟨cur2, lu2, ?_⟩
  rw [hrun]
  simp

/-- C2: after any sequence of EnterLesson calls with pairwise distinct
tab_id values starting from the absent state, the record holds exactly one
entry per call, the `current_lesson` is the entry of the most recent call
(entering always takes focus), and GetCurrent reports that entry as focused
with `total_active_tabs` equal to the number of calls. -/
theorem enterLesson_sequence_counts_tabs (u : String) (cs : List EnterCall)
    (c : EnterCall)
    (hnd : ((cs ++ [c]).map (fun x => x.tab_id)).Nodup) :
    ∃ tr : Tracking,
      (runEnters u (cs ++ [c]) ⟨none, none, none⟩).doc = some tr ∧
      tr.active_lessons.length = cs.length + 1 ∧
      tr.current_lesson = some (toLesson c) ∧
      get_current_lesson u (runEnters u (cs ++ [c]) ⟨none, none, none⟩) =
        some ⟨u, c.lesson_id, c.serie_id, c.lesson_title, c.now,
              tr.active_lessons, cs.length + 1⟩ := by
  rw [runEnters_snoc]
  rcases Decidable.em (cs = []) with rfl | hne
  · rw [show runEnters u [] (⟨none, none, none⟩ : MongoStore) =
        ⟨none, none, none⟩ from rfl]
    rw [set_current_lesson_no_record u c]
    exact ⟨_, rfl, rfl, rfl, rfl⟩
  · rw [List.map_append, List.nodup_append] at hnd
    obtain ⟨hnd1, _, hdisj⟩ := hnd
    obtain ⟨cur2, lu2, hrun⟩ := runEnters_from_absent u cs hne hnd1
    rw [hrun]
    have hfresh : ∀ x ∈ cs.map toLesson, x.tab_id ≠ c.tab_id := by
      intro x hx
      obtain ⟨cc, hcc, rfl⟩ := List.mem_map.mp hx
      intro heq
      have heq2 : cc.tab_id = c.tab_id := heq
      have hmem : c.tab_id ∈ List.map (fun x => x.tab_id) cs := by
        have hm := List.mem_map_of_mem (fun y : EnterCall => y.tab_id) hcc
        simpa [heq2] using hm
      exact hdisj hmem (by simp)
    rw [set_current_lesson_fresh_tab u c ⟨u, cs.map toLesson, cur2, lu2⟩
      hfresh]
    refine ⟨_, rfl, by simp, rfl, ?_⟩
    simp only [get_current_lesson, find_one]
    simp [toLesson]

/-- Witness for C2: entering lessons in tabs t1 then t2 yields two active
tabs with focus on the t2 entry, as GetCurrent reports. -/
theorem enterLesson_sequence_counts_tabs_witness :
    ∃ tr : Tracking,
      (runEnters "u1" ([⟨"lA", "sA", none, "t1", 1⟩] ++ [⟨"lB", "sB", none, "t2", 2⟩])
        ⟨none, none, none⟩).doc = some tr ∧
      tr.active_lessons.length = [(⟨"lA", "sA", none, "t1", 1⟩ : EnterCall)].length + 1 ∧
      tr.current_lesson = some (toLesson ⟨"lB", "sB", none, "t2", 2⟩) ∧
      get_current_lesson "u1"
          (runEnters "u1" ([⟨"lA", "sA", none, "t1", 1⟩] ++ [⟨"lB", "sB", none, "t2", 2⟩])
            ⟨none, none, none⟩) =
        some ⟨"u1", "lB", "sB", none, 2, tr.active_lessons,
              [(⟨"lA", "sA", none, "t1", 1⟩ : EnterCall)].length + 1⟩ :=
  enterLesson_sequence_counts_tabs "u1" [⟨"lA", "sA", none, "t1", 1⟩]
    ⟨"lB", "sB", none, "t2", 2⟩ (by decide)
theorem length_filter_ne_tab (tab : String) :
    ∀ ls : List Lesson,
    (ls.map (fun x => x.tab_id)).Nodup →
    tab ∈ ls.map (fun x => x.tab_id) →
    (ls.filter (fun x => x.tab_id != tab)).length + 1 = ls.length := by
  intro ls
  induction ls with
  | nil =>
    intro _ hmem
    simp at hmem
  | cons a as ih =>
    intro hnd hmem
    rw [List.map_cons, List.nodup_cons] at hnd
    by_cases ha : a.tab_id = tab
    · have hno : ∀ x ∈ as, x.tab_id ≠ tab := by
        intro x hx heq
        apply hnd.1
        rw [ha]
        simpa [heq] using List.mem_map_of_mem (fun y : Lesson => y.tab_id) hx
      rw [List.filter_cons]
      have hpa : (a.tab_id != tab) = false := by simp [ha]
      rw [hpa]
      rw [filter_ne_tab_eq_self tab as hno]
      simp
    · have hpa : (a.tab_id != tab) = true := bne_iff_ne.mpr ha
      rw [List.filter_cons, hpa]
      have hmem2 : tab ∈ as.map (fun x => x.tab_id) := by
        rw [List.map_cons, List.mem_cons] at hmem
        rcases hmem with h | h
        · exact absurd h.symm ha
        · exact h
      simp [ih hnd.2 hmem2]

theorem find?_filtered_tab_none (tab : String) (ls : List Lesson) :
    (ls.filter (fun x => x.tab_id != tab)).find?
      (fun x => x.tab_id == tab) = none := by
  apply List.find?_eq_none.mpr
  intro x hx
  have := (List.mem_filter.mp hx).2
  simp only [bne_iff_ne] at this
  simp [this]

/-- C3: EnterLesson on a tab_id already present replaces that entry instead
of inserting a second one — the entry count is unchanged, the entry for the
tab carries the new lesson's fields, and tab_id values stay pairwise
distinct. -/
theorem enterLesson_replaces_same_tab (u lesson serie tab : String)
    (title : Option String) (now : Nat) (tr : Tracking)
    (hnd : (tr.active_lessons.map (fun x => x.tab_id)).Nodup)
    (hmem : tab ∈ tr.active_lessons.map (fun x => x.tab_id)) :
    ∃ tr2,
      (set_current_lesson u lesson serie tab title now
        ⟨some tr, none, none⟩).1.doc = some tr2 ∧
      tr2.active_lessons.length = tr.active_lessons.length ∧
      tr2.active_lessons.find? (fun x => x.tab_id == tab) =
        some ⟨lesson, serie, title, tab, now⟩ ∧
      tr2.current_lesson = some ⟨lesson, serie, title, tab, now⟩ ∧
      (tr2.active_lessons.map (fun x => x.tab_id)).Nodup := by
  refine ⟨{ tr with
      active_lessons := (tr.active_lessons.filter (fun x => x.tab_id != tab))
        ++ [⟨lesson, serie, title, tab, now⟩],
      current_lesson := some ⟨lesson, serie, title, tab, now⟩,
      last_updated := now }, ?_, ?_, ?_, rfl, ?_⟩
  · simp [set_current_lesson, find_one, write_doc]
  · simp only [List.length_append, List.length_singleton]
    exact length_filter_ne_tab tab tr.active_lessons hnd hmem
  · rw [List.find?_append, find?_filtered_tab_none]
    simp [List.find?]
  · rw [List.map_append]
    apply List.nodup_append.mpr
    refine ⟨?_, List.nodup_singleton _, ?_⟩
    · exact hnd.sublist
        ((List.filter_sublist tr.active_lessons).map (fun x => x.tab_id))
    · intro a ha hb
      have hb2 : a = tab := by simpa using hb
      subst hb2
      obtain ⟨x, hx, hxa⟩ := List.mem_map.mp ha
      have := (List.mem_filter.mp hx).2
      rw [bne_iff_ne] at this
      exact this hxa

/-- Witness for C3: re-entering tab tabX with lessonB replaces the lessonA
entry; the count stays 1 and tab ids stay distinct. -/
theorem enterLesson_replaces_same_tab_witness :
    ∃ tr2,
      (set_current_lesson "u1" "lessonB" "serieB" "tabX" none 9
        ⟨some (Tracking.mk "u1" [⟨"lessonA", "serieA", none, "tabX", 1⟩]
          (some ⟨"lessonA", "serieA", none, "tabX", 1⟩) 1),
         none, none⟩).1.doc = some tr2 ∧
      tr2.active_lessons.length = (Tracking.mk "u1"
        [⟨"lessonA", "serieA", none, "tabX", 1⟩]
        (some ⟨"lessonA", "serieA", none, "tabX", 1⟩) 1).active_lessons.length ∧
      tr2.active_lessons.find? (fun x => x.tab_id == "tabX") =
        some ⟨"lessonB", "serieB", none, "tabX", 9⟩ ∧
      tr2.current_lesson = some ⟨"lessonB", "serieB", none, "tabX", 9⟩ ∧
      (tr2.active_lessons.map (fun x => x.tab_id)).Nodup :=
  enterLesson_replaces_same_tab "u1" "lessonB" "serieB" "tabX" none 9 _
    (by decide) (by decide)
theorem updateFirst_length (tab : String) (now : Nat) :
    ∀ ls : List Lesson, (updateFirst tab now ls).length = ls.length := by
  intro ls
  induction ls with
  | nil => rfl
  | cons a as ih =>
    by_cases ha : (a.tab_id == tab) = true
    · simp [updateFirst, ha]
    · simp [updateFirst, ha, ih]

/-- C5: every record reachable from the absent state through EnterLesson,
ExitLesson and UpdateFocus transitions — whether each underlying store call
succeeds or fails — has a `current_lesson` that is an entry of its
`active_lessons` (hence with a matching tab_id), and a non-empty
`active_lessons` (the record is deleted when its last entry goes); focus
and entries are only ever written together in one transition. -/
theorem reachable_record_invariant (st : Option Tracking)
    (hreach : Reachable st) :
    ∀ tr : Tracking, st = some tr →
    ∃ c, tr.current_lesson = some c ∧ c ∈ tr.active_lessons ∧
      tr.active_lessons ≠ [] := by
  induction hreach with
  | init =>
    intro tr htr
    exact absurd htr (by simp)
  | enter st ff wf u l se t title now hst ih =>
    intro tr htr
    cases ff with
    | some m =>
      simp only [set_current_lesson, find_one] at htr
      exact ih tr htr
    | none =>
      cases hd : st with
      | none =>
        cases wf with
        | some m =>
          rw [hd] at htr
          simp only [set_current_lesson, find_one, write_doc] at htr
          exact absurd htr (by simp)
        | none =>
          rw [hd] at htr
          simp only [set_current_lesson, find_one, write_doc,
            Option.some_inj] at htr
          refine ⟨⟨l, se, title, t, now⟩, ?_, ?_, ?_⟩ <;> rw [← htr] <;> simp
      | some tracking =>
        cases wf with
        | some m =>
          rw [hd] at htr
          simp only [set_current_lesson, find_one, write_doc] at htr
          exact ih tr (hd ▸ htr)
        | none =>
          rw [hd] at htr
          simp only [set_current_lesson, find_one, write_doc,
            Option.some_inj] at htr
          refine ⟨⟨l, se, title, t, now⟩, ?_, ?_, ?_⟩ <;> rw [← htr] <;> simp
  | focus st ff wf u t now hst ih =>
    intro tr htr
    cases ff with
    | some m =>
      simp only [update_focus, find_one] at htr
      exact ih tr htr
    | none =>
      cases hd : st with
      | none =>
        rw [hd] at htr
        simp only [update_focus, find_one] at htr
        exact absurd htr (by simp)
      | some tracking =>
        rw [hd] at htr
        cases hfind : tracking.active_lessons.find?
            (fun x => x.tab_id == t) with
        | none =>
          simp only [update_focus, find_one, hfind] at htr
          exact ih tr (hd ▸ htr)
        | some l =>
          cases wf with
          | some m =>
            simp only [update_focus, find_one, hfind, write_doc] at htr
            exact ih tr (hd ▸ htr)
          | none =>
            simp only [update_focus, find_one, hfind, write_doc,
              Option.some_inj] at htr
            refine ⟨{ l with last_active := now }, ?_, ?_, ?_⟩
            · rw [← htr]
            · rw [← htr]
              exact updateFirst_mem t now tracking.active_lessons l hfind
            · rw [← htr]
              simp only [ne_eq, ← List.length_eq_zero]
              rw [updateFirst_length]
              have := List.find?_some hfind
              intro hlen
              rw [List.length_eq_zero] at hlen
              rw [hlen] at hfind
              simp [List.find?] at hfind
  | exita st ff wf u t now hst ih =>
    intro tr htr
    cases ff with
    | some m =>
      simp only [clear_current_lesson, find_one] at htr
      exact ih tr htr
    | none =>
      cases hd : st with
      | none =>
        rw [hd] at htr
        simp only [clear_current_lesson, find_one] at htr
        exact absurd htr (by simp)
      | some tracking =>
        rw [hd] at htr
        cases hfil : tracking.active_lessons.filter
            (fun x => x.tab_id != t) with
        | nil =>
          cases wf with
          | some m =>
            simp only [clear_current_lesson, find_one, hfil, write_doc] at htr
            exact ih tr (hd ▸ htr)
          | none =>
            simp only [clear_current_lesson, find_one, hfil, write_doc] at htr
            exact absurd htr (by simp)
        | cons l ls =>
          cases wf with
          | some m =>
            simp only [clear_current_lesson, find_one, hfil, write_doc] at htr
            exact ih tr (hd ▸ htr)
          | none =>
            simp only [clear_current_lesson, find_one, hfil, write_doc,
              Option.some_inj] at htr
            refine ⟨maxByLastActive l ls, ?_, ?_, ?_⟩
            · rw [← htr]
            · rw [← htr]
              exact maxByLastActive_mem ls l
            · rw [← htr]
              simp

/-- Witness for C5: the record created by entering lessonA in tabX from the
absent state satisfies the focus-membership and non-emptiness invariant. -/
theorem reachable_record_invariant_witness :
    ∃ c, (Tracking.mk "u1" [⟨"lessonA", "serieA", none, "tabX", 3⟩]
        (some ⟨"lessonA", "serieA", none, "tabX", 3⟩) 3).current_lesson
        = some c ∧
      c ∈ (Tracking.mk "u1" [⟨"lessonA", "serieA", none, "tabX", 3⟩]
        (some ⟨"lessonA", "serieA", none, "tabX", 3⟩) 3).active_lessons ∧
      (Tracking.mk "u1" [⟨"lessonA", "serieA", none, "tabX", 3⟩]
        (some ⟨"lessonA", "serieA", none, "tabX", 3⟩) 3).active_lessons
        ≠ [] :=
  reachable_record_invariant
    (set_current_lesson "u1" "lessonA" "serieA" "tabX" none 3
      ⟨none, none, none⟩).1.doc
    (Reachable.enter none none none "u1" "lessonA" "serieA" "tabX" none 3
      Reachable.init)
    _ rfl

end EduTrack

